import Mathlib

/-!
Shallow embedding of the specbridge core (src/live-client.ts and
src/audio-streamer.ts) and verification of its specification claims.

The embedding follows the second (queue-bearing) variant of
src/live-client.ts, which the specification's line references target:
`safeSend`, the per-connection `msgQueue`, the `onopen` flush, the
classified `onclose` handler, and `disconnect`.
-/

namespace SpecBridge

/-! ## Session Transport (src/live-client.ts) -/

/-- WebSocket `readyState` numeric constant for an open connection. -/
def WebSocket.OPEN : Nat := 1

/-- WebSocket `readyState` numeric constant for a connecting connection. -/
def WebSocket.CONNECTING : Nat := 0

/-- WebSocket `readyState` numeric constant for a closed connection. -/
def WebSocket.CLOSED : Nat := 3

/-- Serialized outbound session messages, one constructor per message
builder in `LiveClient` (`sendSetup`, `sendAudio`, `sendText`,
`sendToolResponse`). The payload strings stand for the serialized
JSON bodies. -/
inductive Msg where
  | setup (systemInstruction : String)
  | realtimeAudio (b64 : String)
  | clientText (text : String)
  | toolResponse (id name response : String)
  deriving DecidableEq

/-- Observable state of a `LiveClient`: the websocket handle (`none` models
`this.ws === null`, `some rs` a socket whose `readyState` is `rs`), the
pending `msgQueue`, the messages handed to `ws.send` so far in wire order,
and the `AudioStreamer`'s device state — the `source` and `worklet` node
fields, whether the `getUserMedia` microphone stream's tracks are live,
and whether the `AudioContext` is running. -/
structure LiveClientState where
  ws : Option Nat
  msgQueue : List Msg
  transmitted : List Msg
  audioSource : Bool
  audioWorklet : Bool
  micStream : Bool
  contextRunning : Bool
  deriving DecidableEq

/-- Embedding of `LiveClient.safeSend`: transmit when the socket exists and
its `readyState` is `OPEN`, otherwise push onto `msgQueue`. -/
def safeSend (st : LiveClientState) (m : Msg) : LiveClientState :=
  match st.ws with
  | some rs =>
      if rs = WebSocket.OPEN then
        { st with transmitted := st.transmitted ++ [m] }
      else
        { st with msgQueue := st.msgQueue ++ [m] }
  | none => { st with msgQueue := st.msgQueue ++ [m] }

/-- Embedding of `LiveClient.sendSetup` (the queue-bearing variant routes the
setup message through `safeSend`). -/
def sendSetup (st : LiveClientState) (systemInstruction : String) : LiveClientState :=
  safeSend st (Msg.setup systemInstruction)

/-- Embedding of `LiveClient.sendAudio`. -/
def sendAudio (st : LiveClientState) (b64 : String) : LiveClientState :=
  safeSend st (Msg.realtimeAudio b64)

/-- Embedding of `LiveClient.sendText`. -/
def sendText (st : LiveClientState) (text : String) : LiveClientState :=
  safeSend st (Msg.clientText text)

/-- Embedding of `LiveClient.sendToolResponse`. -/
def sendToolResponse (st : LiveClientState) (id name response : String) : LiveClientState :=
  safeSend st (Msg.toolResponse id name response)

/-- Embedding of `AudioStreamer.startRecording`'s effect on the device
state: the `AudioContext` is resumed, a microphone `MediaStream` is
acquired via `getUserMedia`, and the source and worklet nodes are created
and connected. -/
def startRecording (st : LiveClientState) : LiveClientState :=
  { st with contextRunning := true, micStream := true,
            audioSource := true, audioWorklet := true }

/-- Embedding of `AudioStreamer.stopRecording`: it only calls
`source?.disconnect()` and `worklet?.disconnect()` and nulls those two
fields; it never calls `track.stop()` on the `getUserMedia` stream and
never closes the `AudioContext`, so the microphone tracks and the context
keep whatever state they had. A no-op when the nodes are already nulled. -/
def stopRecording (st : LiveClientState) : LiveClientState :=
  { st with audioSource := false, audioWorklet := false }

/-- Embedding of the flush loop in the `onopen` handler:
`while (this.msgQueue.length > 0) { const msg = this.msgQueue.shift(); if (msg) this.ws?.send(msg); }`.
The first component is the queue left behind, the second the wire log. -/
def drain : List Msg → List Msg → List Msg × List Msg
  | [], sent => ([], sent)
  | m :: rest, sent => drain rest (sent ++ [m])

/-- Applying the drain loop to a client state. -/
def flushQueue (st : LiveClientState) : LiveClientState :=
  { st with msgQueue := (drain st.msgQueue st.transmitted).1,
            transmitted := (drain st.msgQueue st.transmitted).2 }

/-- Embedding of the `onopen` handler: when the handler fires the socket's
`readyState` is `OPEN`; the handler sends the `Setup` message, drains the
queue, and starts the capture pipeline, in that order. -/
def onopenHandler (st : LiveClientState) (systemInstruction : String) : LiveClientState :=
  startRecording (flushQueue (sendSetup { st with ws := some WebSocket.OPEN } systemInstruction))

/-- Embedding of `LiveClient.disconnect`: `ws?.close()` then
`audio.stopRecording()`, then `this.ws = null` and `this.msgQueue = []`. -/
def disconnect (st : LiveClientState) : LiveClientState :=
  { stopRecording st with ws := none, msgQueue := [] }

/-- Concrete `Closed` transport state used for counterexamples: a socket
whose `readyState` is `CLOSED` and nothing queued or transmitted. -/
def closedClient : LiveClientState :=
  { ws := some WebSocket.CLOSED, msgQueue := [], transmitted := [],
    audioSource := false, audioWorklet := false,
    micStream := false, contextRunning := false }

/-- Concrete `Open` transport state used for witnesses. -/
def openClient : LiveClientState :=
  { ws := some WebSocket.OPEN, msgQueue := [], transmitted := [],
    audioSource := true, audioWorklet := true,
    micStream := true, contextRunning := true }

/-! ## Close-event classification (the `onclose` handler in src/live-client.ts) -/

/-- Substring test on character lists, modelling the JS
`String.prototype.includes` used by the `onclose` handler. -/
def includesAux (sub : List Char) : List Char → Bool
  | [] => sub.isEmpty
  | c :: rest => sub.isPrefixOf (c :: rest) || includesAux sub rest

/-- Embedding of `reason.includes(sub)`. -/
def strIncludes (s sub : String) : Bool :=
  includesAux sub.toList s.toList

/-- Payload of the single `onUpdate` call made by the `onclose` handler:
`{ connectionState: "disconnected", error: errorMsg }`. -/
structure UpdateEvent where
  connectionState : String
  error : String
  deriving DecidableEq

/-- Embedding of the `onclose` handler of the queue-bearing `LiveClient`:
classifies the close code and reason and emits exactly one update event. -/
def oncloseHandler (code : Nat) (reason : String) : List UpdateEvent :=
  let errorMsg :=
    if code = 1011 then
      if strIncludes reason "quota" then "Quota exceeded. Please check billing."
      else "Server error: " ++ reason
    else "Connection closed"
  [{ connectionState := "disconnected", error := errorMsg }]

/-! ## Protocol Demultiplexer (the `onmessage` handler in src/live-client.ts) -/

/-- Wire shape `inlineData` of a server audio part. -/
structure InlineData where
  data : String
  deriving DecidableEq

/-- Wire shape of one element of `serverContent.modelTurn.parts`. -/
structure ContentPart where
  inlineData : Option InlineData
  text : Option String
  deriving DecidableEq

/-- Wire shape of `serverContent.modelTurn`. -/
structure ModelTurn where
  parts : List ContentPart
  deriving DecidableEq

/-- Wire shape of `serverContent`. -/
structure ServerContent where
  modelTurn : Option ModelTurn
  turnComplete : Option Bool
  deriving DecidableEq

/-- Wire shape of one element of `toolCall.functionCalls`. -/
structure FunctionCall where
  id : String
  name : String
  args : String
  deriving DecidableEq

/-- Parsed inbound message as the `onmessage` handler sees it. -/
structure InboundMessage where
  serverContent : Option ServerContent
  toolCall : Option (List FunctionCall)
  deriving DecidableEq

/-- Embedding of the optional chain
`data.serverContent?.modelTurn?.parts?.[0]?.inlineData` followed by `.data`. -/
def extractInlineData (m : InboundMessage) : Option String :=
  match m.serverContent with
  | none => none
  | some sc =>
    match sc.modelTurn with
    | none => none
    | some mt =>
      match mt.parts.head? with
      | none => none
      | some p =>
        match p.inlineData with
        | none => none
        | some d => some d.data

/-- Whether a message carries the turn-completion signal
`serverContent.turnComplete: true`. -/
def isTurnSignal (m : InboundMessage) : Bool :=
  match m.serverContent with
  | none => false
  | some sc =>
    match sc.turnComplete with
    | none => false
    | some b => b

/-- Observable effects of the demultiplexer: base64 chunks handed to
`audio.playChunk` and messages handed to the `onUpdate` callback, each in
arrival order. -/
structure DemuxState where
  played : List String
  delivered : List InboundMessage
  deriving DecidableEq

/-- Embedding of the `onmessage` handler: schedule the audio part for
playback when present, then always hand the full message to `onUpdate`. -/
def onmessageHandler (st : DemuxState) (m : InboundMessage) : DemuxState :=
  let st1 :=
    match extractInlineData m with
    | some b64 => { st with played := st.played ++ [b64] }
    | none => st
  { st1 with delivered := st1.delivered ++ [m] }

/-! ## Playback Scheduler (AudioStreamer.playChunk in src/audio-streamer.ts) -/

/-- Scheduling state of an `AudioStreamer`: the `scheduledTime` cursor and
the log of `source.start(t)` calls as (start time, chunk duration) pairs in
the order they were issued. Hardware clock times and durations are embedded
as rationals. -/
structure AudioStreamerSched where
  scheduledTime : ℚ
  starts : List (ℚ × ℚ)
  deriving DecidableEq

/-- Embedding of the scheduling core of `AudioStreamer.playChunk`: if the
cursor lags `context.currentTime` it is pulled up to it, the source is
started at the cursor, and the cursor advances by the chunk's duration. -/
def playChunk (st : AudioStreamerSched) (currentTime duration : ℚ) :
    AudioStreamerSched :=
  let t := if st.scheduledTime < currentTime then currentTime else st.scheduledTime
  { scheduledTime := t + duration, starts := st.starts ++ [(t, duration)] }

/-- Feeding a sequence of chunks, each tagged with the hardware clock value
observed when it is scheduled and its duration, through `playChunk`. -/
def runSched (st : AudioStreamerSched) : List (ℚ × ℚ) → AudioStreamerSched
  | [] => st
  | (now, dur) :: rest => runSched (playChunk st now dur) rest

/-- Modelled from the spec: the PlaybackSchedule invariant written as a
recursion — each chunk starts at `max(currentHardwareTime, cursor)` and the
cursor advances by exactly the chunk's duration. -/
def playbackScheduleSpec (cursor : ℚ) : List (ℚ × ℚ) → List (ℚ × ℚ)
  | [] => []
  | (now, dur) :: rest =>
      (max cursor now, dur) :: playbackScheduleSpec (max cursor now + dur) rest

/-! ## Sample Converter (src/audio-streamer.ts helpers) -/

/-- Truncation toward zero of a rational, the semantics of storing a (here
always in-range) number into a JS `Int16Array` slot. -/
def truncQ (q : ℚ) : ℤ := if q < 0 then ⌈q⌉ else ⌊q⌋

/-- Embedding of `AudioStreamer.float32ToInt16`: clamp each sample to
[-1, 1], scale negatives by 0x8000 and non-negatives by 0x7FFF, and store
as a 16-bit integer (truncating). Samples are embedded as rationals, which
is exact for this computation: the products fit a float64 significand and
every quotient `v / 32768` with `|v| ≤ 32768` is exactly representable in
float32. -/
def float32ToInt16 (xs : List ℚ) : List ℤ :=
  xs.map fun x =>
    let s := max (-1) (min 1 x)
    if s < 0 then truncQ (s * 32768) else truncQ (s * 32767)

/-- Embedding of `AudioStreamer.int16ToFloat32`: divide each sample by
32768. -/
def int16ToFloat32 (vs : List ℤ) : List ℚ :=
  vs.map fun v => (v : ℚ) / 32768

/-! ## Transport encoding (arrayBufferToBase64 / base64ToArrayBuffer) -/

/-- Standard base64 alphabet used by the browser's `btoa`/`atob`. -/
def b64Alphabet : List Char :=
  "ABCDEFGHIJKLMNOPQRSTUVWXYZabcdefghijklmnopqrstuvwxyz0123456789+/".toList

/-- Character for a 6-bit group. -/
def b64Char (n : Nat) : Char := b64Alphabet.getD n 'A'

/-- Value of a base64 character as a 6-bit group. -/
def b64Val (c : Char) : Nat := b64Alphabet.findIdx (fun d => d == c)

/-- Modelled from the spec and the browser built-in it names: `btoa` applied
to the byte string built by `AudioStreamer.arrayBufferToBase64`
(`String.fromCharCode` embeds each byte 0..255 as one code unit, so the
byte list itself is the binary string). Groups of three bytes become four
alphabet characters; a final group of one or two bytes is zero-padded and
marked with `=`. -/
def encodeB64 : List Nat → List Char
  | [] => []
  | [a] => [b64Char (a / 4), b64Char (a % 4 * 16), '=', '=']
  | [a, b] => [b64Char (a / 4), b64Char (a % 4 * 16 + b / 16), b64Char (b % 16 * 4), '=']
  | a :: b :: c :: rest =>
      b64Char (a / 4) :: b64Char (a % 4 * 16 + b / 16) ::
        b64Char (b % 16 * 4 + c / 64) :: b64Char (c % 64) :: encodeB64 rest

/-- Modelled from the spec and the browser built-in it names: `atob` as used
by `AudioStreamer.base64ToArrayBuffer` (`charCodeAt` recovers each byte
from the decoded binary string). Four characters yield three bytes; `=`
padding ends the input with one or two bytes. -/
def decodeB64 : List Char → List Nat
  | c1 :: c2 :: c3 :: c4 :: rest =>
      if c3 = '=' then [b64Val c1 * 4 + b64Val c2 / 16]
      else if c4 = '=' then
        [b64Val c1 * 4 + b64Val c2 / 16, b64Val c2 % 16 * 16 + b64Val c3 / 4]
      else
        (b64Val c1 * 4 + b64Val c2 / 16) ::
          (b64Val c2 % 16 * 16 + b64Val c3 / 4) ::
          (b64Val c3 % 4 * 64 + b64Val c4) :: decodeB64 rest
  | _ => []

/-- Embedding of `AudioStreamer.arrayBufferToBase64` on the buffer's bytes. -/
def arrayBufferToBase64 (bytes : List Nat) : List Char := encodeB64 bytes

/-- Embedding of `AudioStreamer.base64ToArrayBuffer`, returning the bytes of
the produced buffer. -/
def base64ToArrayBuffer (s : List Char) : List Nat := decodeB64 s

/-! ## Theorems for the Session Transport claims -/

theorem drain_eq (q s : List Msg) : drain q s = ([], s ++ q) := by
  induction q generalizing s with
  | nil => simp [drain]
  | cons m rest ih => simp [drain, ih]

/-- C1 counterexample: in the `Closed` state (socket `readyState = CLOSED`)
`safeSend` appends the message to the OutboundQueue instead of dropping it,
so the call is not a no-op as the claim states. -/
theorem safeSend_closed_not_dropped :
    (safeSend closedClient (Msg.clientText "hello")).msgQueue ≠ closedClient.msgQueue ∧
    (safeSend closedClient (Msg.clientText "hello")).msgQueue = [Msg.clientText "hello"] ∧
    (safeSend closedClient (Msg.clientText "hello")).transmitted = [] := by
  refine ⟨?_, rfl, rfl⟩
  decide

/-- C1 (amended): `safeSend` transmits the serialized message immediately
when the transport is `Open`, and in every other transport state —
`Connecting`, `Idle`, and also `Closed` — it appends the message to the
OutboundQueue; it never drops a message and never errors. -/
theorem safeSend_spec (st : LiveClientState) (m : Msg) :
    (st.ws = some WebSocket.OPEN →
      safeSend st m = { st with transmitted := st.transmitted ++ [m] }) ∧
    (st.ws ≠ some WebSocket.OPEN →
      safeSend st m = { st with msgQueue := st.msgQueue ++ [m] }) := by
  constructor
  · intro h
    simp [safeSend, h]
  · intro h
    match hw : st.ws with
    | none => simp [safeSend, hw]
    | some rs =>
        have hrs : ¬ rs = WebSocket.OPEN := by
          intro hr
          exact h (by rw [hw, hr])
        simp [safeSend, hw, hrs]

/-- C1 witness: the amended send semantics evaluated at a concrete open
state and at a concrete closed state. -/
theorem safeSend_spec_witness :
    safeSend openClient (Msg.clientText "a") =
      { openClient with transmitted := [Msg.clientText "a"] } ∧
    safeSend closedClient (Msg.clientText "b") =
      { closedClient with msgQueue := [Msg.clientText "b"] } := by
  constructor
  · exact (safeSend_spec openClient (Msg.clientText "a")).1 rfl
  · exact (safeSend_spec closedClient (Msg.clientText "b")).2 (by decide)

/-- C2: on the transition to `Open` the handler sends exactly one `Setup`
message first, then flushes the queued messages in FIFO order, leaves the
queue empty, and only then starts the capture pipeline; any message sent
after the transition lands on the wire after the setup message and after
every previously queued message. -/
theorem onopen_order (st : LiveClientState) (sys : String) (m : Msg) :
    (onopenHandler st sys).transmitted =
      st.transmitted ++ [Msg.setup sys] ++ st.msgQueue ∧
    (onopenHandler st sys).msgQueue = [] ∧
    (onopenHandler st sys).audioSource = true ∧
    (onopenHandler st sys).audioWorklet = true ∧
    (safeSend (onopenHandler st sys) m).transmitted =
      st.transmitted ++ [Msg.setup sys] ++ st.msgQueue ++ [m] := by
  have hws : (onopenHandler st sys).ws = some WebSocket.OPEN := by
    simp [onopenHandler, startRecording, flushQueue, sendSetup, safeSend, WebSocket.OPEN]
  refine ⟨?_, ?_, rfl, rfl, ?_⟩
  · simp [onopenHandler, startRecording, flushQueue, sendSetup, safeSend,
      WebSocket.OPEN, drain_eq]
  · simp [onopenHandler, startRecording, flushQueue, sendSetup, safeSend,
      WebSocket.OPEN, drain_eq]
  · rw [(safeSend_spec (onopenHandler st sys) m).1 hws]
    simp [onopenHandler, startRecording, flushQueue, sendSetup, safeSend,
      WebSocket.OPEN, drain_eq]

/-- C5: the code contradicts the claim's "no device handles are active".
Evaluating `disconnect` twice on a client whose capture pipeline is
running: the call is idempotent, raises no error (total function), nulls
the socket, clears the OutboundQueue, and releases the source and worklet
nodes — but the microphone `MediaStream` acquired by `getUserMedia` is
never stopped and the resumed `AudioContext` is never closed, so both
device handles are still active afterwards. -/
theorem disconnect_leaves_mic_active :
    disconnect (disconnect (startRecording openClient)) =
      disconnect (startRecording openClient) ∧
    (disconnect (disconnect (startRecording openClient))).ws = none ∧
    (disconnect (disconnect (startRecording openClient))).msgQueue = [] ∧
    (disconnect (disconnect (startRecording openClient))).audioSource = false ∧
    (disconnect (disconnect (startRecording openClient))).audioWorklet = false ∧
    (disconnect (disconnect (startRecording openClient))).micStream = true ∧
    (disconnect (disconnect (startRecording openClient))).contextRunning = true := by
  refine ⟨?_, rfl, rfl, rfl, rfl, rfl, rfl⟩
  simp [disconnect, stopRecording]

theorem serverMsg_head (l : List Char) :
    (("Server error: " ++ (⟨l⟩ : String)) : String).data.head? = some 'S' := rfl

theorem connMsg_head (l : List Char) :
    (("Connection closed" ++ (⟨l⟩ : String)) : String).data.head? = some 'C' := rfl

/-- C6: closing with code 1011 and a reason containing "quota" emits exactly
one update event classified as a billing/quota error, and this
classification is distinct from the one for code 1011 with any other
reason (generic server error) and from the one for any other close code
(generic connection closed). -/
theorem onclose_classification (reason : String) (code : Nat) :
    (strIncludes reason "quota" = true →
      oncloseHandler 1011 reason =
        [{ connectionState := "disconnected",
           error := "Quota exceeded. Please check billing." }]) ∧
    (strIncludes reason "quota" = false →
      oncloseHandler 1011 reason =
        [{ connectionState := "disconnected",
           error := "Server error: " ++ reason }]) ∧
    (code ≠ 1011 →
      oncloseHandler code reason =
        [{ connectionState := "disconnected", error := "Connection closed" }]) ∧
    "Quota exceeded. Please check billing." ≠ "Server error: " ++ reason ∧
    ("Quota exceeded. Please check billing." : String) ≠ "Connection closed" ∧
    ("Server error: " ++ reason) ≠ "Connection closed" := by
  refine ⟨?_, ?_, ?_, ?_, by decide, ?_⟩
  · intro h
    simp [oncloseHandler, h]
  · intro h
    simp [oncloseHandler, h]
  · intro h
    simp [oncloseHandler, h]
  · intro h
    obtain ⟨l⟩ := reason
    have h2 : ("Quota exceeded. Please check billing." : String).data.head? =
        (("Server error: " ++ (⟨l⟩ : String)) : String).data.head? := by rw [h]
    rw [serverMsg_head] at h2
    exact absurd h2 (by decide)
  · intro h
    obtain ⟨l⟩ := reason
    have h2 : (("Server error: " ++ (⟨l⟩ : String)) : String).data.head? =
        ("Connection closed" : String).data.head? := by rw [h]
    rw [serverMsg_head] at h2
    exact absurd h2 (by decide)

/-- C6 witness: the classification evaluated at a quota close, at a non-quota
1011 close, and at a non-1011 close. -/
theorem onclose_classification_witness :
    oncloseHandler 1011 "exceeded quota limit" =
      [{ connectionState := "disconnected",
         error := "Quota exceeded. Please check billing." }] ∧
    oncloseHandler 1011 "internal failure" =
      [{ connectionState := "disconnected",
         error := "Server error: " ++ "internal failure" }] ∧
    oncloseHandler 1000 "bye" =
      [{ connectionState := "disconnected", error := "Connection closed" }] :=
  ⟨(onclose_classification "exceeded quota limit" 1000).1 (by decide),
   (onclose_classification "internal failure" 1000).2.1 (by decide),
   (onclose_classification "bye" 1000).2.2.1 (by decide)⟩

/-- C9: a successfully parsed inbound message that carries no audio part, no
tool call, and no turn signal is still handed to the application callback
as an opaque event — the demultiplexer changes nothing else. -/
theorem unknown_message_forwarded (st : DemuxState) (m : InboundMessage)
    (haudio : extractInlineData m = none) (_htool : m.toolCall = none)
    (_hturn : isTurnSignal m = false) :
    onmessageHandler st m = { st with delivered := st.delivered ++ [m] } := by
  simp [onmessageHandler, haudio]

/-- C9 witness: an inbound message with no recognized field is forwarded. -/
theorem unknown_message_forwarded_witness :
    onmessageHandler ⟨[], []⟩ ⟨none, none⟩ =
      { played := [], delivered := [⟨none, none⟩] } :=
  unknown_message_forwarded ⟨[], []⟩ ⟨none, none⟩ rfl rfl rfl

/-- C10: an inbound message carrying a server audio part is both scheduled
for playback and forwarded unchanged to the application callback, and every
parsed inbound message, audio-bearing or not, is delivered to the callback
exactly once. -/
theorem audio_message_played_and_forwarded (st : DemuxState)
    (m m' : InboundMessage) (b64 : String)
    (h : extractInlineData m = some b64) :
    onmessageHandler st m =
      { played := st.played ++ [b64], delivered := st.delivered ++ [m] } ∧
    (onmessageHandler st m').delivered = st.delivered ++ [m'] := by
  constructor
  · simp [onmessageHandler, h]
  · cases hx : extractInlineData m' <;> simp [onmessageHandler, hx]

/-- C10 witness: a concrete audio-bearing message is played and forwarded. -/
theorem audio_message_played_and_forwarded_witness :
    onmessageHandler ⟨[], []⟩
      ⟨some ⟨some ⟨[⟨some ⟨"UENN"⟩, none⟩]⟩, none⟩, none⟩ =
      { played := ["UENN"],
        delivered := [⟨some ⟨some ⟨[⟨some ⟨"UENN"⟩, none⟩]⟩, none⟩, none⟩] } :=
  (audio_message_played_and_forwarded ⟨[], []⟩
    ⟨some ⟨some ⟨[⟨some ⟨"UENN"⟩, none⟩]⟩, none⟩, none⟩
    ⟨none, none⟩ "UENN" rfl).1

theorem ite_lt_max (c n : ℚ) : (if c < n then n else c) = max c n := by
  rcases le_or_lt n c with h | h
  · rw [if_neg (not_lt.mpr h), max_eq_left h]
  · rw [if_pos h, max_eq_right (le_of_lt h)]

theorem runSched_starts (evs : List (ℚ × ℚ)) :
    ∀ st : AudioStreamerSched,
      (runSched st evs).starts =
        st.starts ++ playbackScheduleSpec st.scheduledTime evs := by
  induction evs with
  | nil => intro st; simp [runSched, playbackScheduleSpec]
  | cons e rest ih =>
      intro st
      obtain ⟨now, dur⟩ := e
      rw [runSched, ih]
      simp [playChunk, playbackScheduleSpec, ite_lt_max]

theorem playbackScheduleSpec_forall₂ (evs : List (ℚ × ℚ)) :
    ∀ c : ℚ,
      List.Forall₂ (fun e o : ℚ × ℚ => e.1 ≤ o.1 ∧ e.2 = o.2) evs
        (playbackScheduleSpec c evs) := by
  induction evs with
  | nil => intro c; exact List.Forall₂.nil
  | cons e rest ih =>
      intro c
      obtain ⟨now, dur⟩ := e
      exact List.Forall₂.cons ⟨le_max_right c now, rfl⟩ (ih (max c now + dur))

theorem playbackScheduleSpec_head_lb (evs : List (ℚ × ℚ)) (c : ℚ) :
    ∀ x ∈ (playbackScheduleSpec c evs).head?, c ≤ x.1 := by
  cases evs with
  | nil => intro x hx; simp [playbackScheduleSpec] at hx
  | cons e rest =>
      obtain ⟨now, dur⟩ := e
      intro x hx
      simp [playbackScheduleSpec] at hx
      rw [← hx]
      exact le_max_left c now

theorem playbackScheduleSpec_chain (evs : List (ℚ × ℚ)) :
    ∀ c : ℚ,
      List.Chain' (fun p q : ℚ × ℚ => p.1 + p.2 ≤ q.1)
        (playbackScheduleSpec c evs) := by
  induction evs with
  | nil => intro c; simp [playbackScheduleSpec]
  | cons e rest ih =>
      intro c
      obtain ⟨now, dur⟩ := e
      rw [playbackScheduleSpec]
      apply List.Chain'.cons'
      · exact ih (max c now + dur)
      · intro y hy
        exact playbackScheduleSpec_head_lb rest (max c now + dur) y hy

theorem playbackScheduleSpec_lb (evs : List (ℚ × ℚ))
    (hdur : ∀ e ∈ evs, 0 ≤ e.2) :
    ∀ c : ℚ, ∀ x ∈ playbackScheduleSpec c evs, c ≤ x.1 := by
  induction evs with
  | nil => intro c x hx; simp [playbackScheduleSpec] at hx
  | cons e rest ih =>
      intro c x hx
      obtain ⟨now, dur⟩ := e
      rw [playbackScheduleSpec] at hx
      rcases List.mem_cons.mp hx with h | h
      · rw [h]; exact le_max_left c now
      · have h0 : (0 : ℚ) ≤ dur := hdur (now, dur) (List.mem_cons_self _ _)
        have := ih (fun e he => hdur e (List.mem_cons_of_mem _ he)) (max c now + dur) x h
        calc c ≤ max c now := le_max_left c now
          _ ≤ max c now + dur := le_add_of_nonneg_right h0
          _ ≤ x.1 := this

theorem playbackScheduleSpec_pairwise (evs : List (ℚ × ℚ))
    (hdur : ∀ e ∈ evs, 0 ≤ e.2) :
    ∀ c : ℚ,
      List.Pairwise (fun p q : ℚ × ℚ => p.1 ≤ q.1)
        (playbackScheduleSpec c evs) := by
  induction evs with
  | nil => intro c; simp [playbackScheduleSpec]
  | cons e rest ih =>
      intro c
      obtain ⟨now, dur⟩ := e
      rw [playbackScheduleSpec]
      apply List.Pairwise.cons
      · intro y hy
        have h0 : (0 : ℚ) ≤ dur := hdur (now, dur) (List.mem_cons_self _ _)
        have hlb := playbackScheduleSpec_lb rest
          (fun e he => hdur e (List.mem_cons_of_mem _ he)) (max c now + dur) y hy
        calc (max c now, dur).1 = max c now := rfl
          _ ≤ max c now + dur := le_add_of_nonneg_right h0
          _ ≤ y.1 := hlb
      · exact ih (fun e he => hdur e (List.mem_cons_of_mem _ he)) (max c now + dur)

/-- C4: starting the scheduler with cursor `c0` and feeding chunks tagged
with arbitrary hardware clock readings and non-negative durations, the
issued start times are exactly those of the spec's PlaybackSchedule
invariant (each start is `max(currentHardwareTime, cursor)` and the cursor
advances by exactly the chunk's duration); consequently playback order
equals enqueue order with durations preserved, every start time is at least
the hardware time observed at scheduling, consecutive chunks satisfy
`next start ≥ previous start + previous duration`, and start times are
non-decreasing. -/
theorem playChunk_schedule_invariant (c0 : ℚ) (events : List (ℚ × ℚ))
    (hdur : ∀ e ∈ events, 0 ≤ e.2) :
    (runSched ⟨c0, []⟩ events).starts = playbackScheduleSpec c0 events ∧
    List.Forall₂ (fun e o : ℚ × ℚ => e.1 ≤ o.1 ∧ e.2 = o.2) events
      ((runSched ⟨c0, []⟩ events).starts) ∧
    List.Chain' (fun p q : ℚ × ℚ => p.1 + p.2 ≤ q.1)
      ((runSched ⟨c0, []⟩ events).starts) ∧
    List.Pairwise (fun p q : ℚ × ℚ => p.1 ≤ q.1)
      ((runSched ⟨c0, []⟩ events).starts) := by
  have hrun : (runSched ⟨c0, []⟩ events).starts = playbackScheduleSpec c0 events := by
    rw [runSched_starts]
    simp
  refine ⟨hrun, ?_, ?_, ?_⟩
  · rw [hrun]; exact playbackScheduleSpec_forall₂ events c0
  · rw [hrun]; exact playbackScheduleSpec_chain events c0
  · rw [hrun]; exact playbackScheduleSpec_pairwise events hdur c0

/-- C4 witness: the scheduling invariant evaluated on three concrete chunks
arriving faster, then slower, than real time. -/
theorem playChunk_schedule_invariant_witness :
    (runSched ⟨0, []⟩ [(0, 2), (1, 1), (10, 3)]).starts =
      playbackScheduleSpec 0 [(0, 2), (1, 1), (10, 3)] ∧
    List.Forall₂ (fun e o : ℚ × ℚ => e.1 ≤ o.1 ∧ e.2 = o.2)
      [(0, 2), (1, 1), (10, 3)]
      ((runSched ⟨0, []⟩ [(0, 2), (1, 1), (10, 3)]).starts) ∧
    List.Chain' (fun p q : ℚ × ℚ => p.1 + p.2 ≤ q.1)
      ((runSched ⟨0, []⟩ [(0, 2), (1, 1), (10, 3)]).starts) ∧
    List.Pairwise (fun p q : ℚ × ℚ => p.1 ≤ q.1)
      ((runSched ⟨0, []⟩ [(0, 2), (1, 1), (10, 3)]).starts) :=
  playChunk_schedule_invariant 0 [(0, 2), (1, 1), (10, 3)] (by decide)

theorem clamp_eq (x : ℚ) (h1 : -1 ≤ x) (h2 : x ≤ 1) :
    max (-1) (min 1 x) = x := by
  rw [min_eq_right h2, max_eq_right h1]

theorem roundtrip_scalar (x : ℚ) (h1 : -1 ≤ x) (h2 : x ≤ 1) :
    |((if max (-1) (min 1 x) < 0 then truncQ (max (-1) (min 1 x) * 32768)
       else truncQ (max (-1) (min 1 x) * 32767) : ℤ) : ℚ) / 32768 - x| ≤
      1 / 16384 := by
  rw [clamp_eq x h1 h2]
  by_cases hx : x < 0
  · rw [if_pos hx]
    have hneg : x * 32768 < 0 := mul_neg_of_neg_of_pos hx (by norm_num)
    simp only [truncQ, if_pos hneg]
    have hc1 : (x * 32768 : ℚ) ≤ ⌈x * 32768⌉ := Int.le_ceil _
    have hc2 : (⌈x * 32768⌉ : ℚ) < x * 32768 + 1 := Int.ceil_lt_add_one _
    rw [abs_le]
    constructor <;> linarith
  · rw [if_neg hx]
    push_neg at hx
    have hpos : 0 ≤ x * 32767 := mul_nonneg hx (by norm_num)
    simp only [truncQ, if_neg (not_lt.mpr hpos)]
    have hf1 : (⌊x * 32767⌋ : ℚ) ≤ x * 32767 := Int.floor_le _
    have hf2 : (x * 32767 : ℚ) < ⌊x * 32767⌋ + 1 := Int.lt_floor_add_one _
    rw [abs_le]
    constructor <;> linarith

/-- C3 counterexample: the sample `1 - 2^-24` (a value exactly representable
in float32) lies in [-1, 1] yet round-trips to `16383/16384`, an error of
`1023/16777216`, which exceeds the claimed one-quantization-step bound
`1/32768 = 512/16777216`. -/
theorem float_roundtrip_one_step_cex :
    (-1 : ℚ) ≤ 16777215 / 16777216 ∧ (16777215 / 16777216 : ℚ) ≤ 1 ∧
    int16ToFloat32 (float32ToInt16 [16777215 / 16777216]) = [16383 / 16384] ∧
    ¬ |(16383 / 16384 : ℚ) - 16777215 / 16777216| ≤ 1 / 32768 := by
  refine ⟨by norm_num, by norm_num, ?_, ?_⟩
  · have hcl : max (-1) (min 1 ((16777215 : ℚ) / 16777216)) = 16777215 / 16777216 :=
      clamp_eq _ (by norm_num) (by norm_num)
    have hq : ((16777215 : ℚ) / 16777216) * 32767 = 549739003905 / 16777216 := by
      norm_num
    have hfl : ⌊(549739003905 : ℚ) / 16777216⌋ = 32766 := by
      rw [Int.floor_eq_iff]
      constructor <;> norm_num
    simp only [float32ToInt16, int16ToFloat32, List.map_cons, List.map_nil, hcl,
      truncQ, hq, if_neg (by norm_num : ¬ ((16777215 : ℚ) / 16777216) < 0),
      if_neg (by norm_num : ¬ ((549739003905 : ℚ) / 16777216) < 0), hfl]
    norm_num
  · intro h
    rw [abs_le] at h
    have h1 := h.1
    norm_num at h1

/-- C3 (amended): for every float sample array with values in [-1, 1],
applying `float32ToInt16` then `int16ToFloat32` yields samples that differ
from the input by at most two quantization steps (`1/16384 = 2/32768`);
the one-step bound claimed by the spec fails for values just below 1
because non-negative samples are scaled by 32767 but decoded by 32768 and
the store truncates. -/
theorem float_roundtrip_within_two_steps (xs : List ℚ)
    (h : ∀ x ∈ xs, -1 ≤ x ∧ x ≤ 1) :
    List.Forall₂ (fun y x : ℚ => |y - x| ≤ 1 / 16384)
      (int16ToFloat32 (float32ToInt16 xs)) xs := by
  induction xs with
  | nil => exact List.Forall₂.nil
  | cons a rest ih =>
      have htail := ih fun x hx => h x (List.mem_cons_of_mem _ hx)
      obtain ⟨h1, h2⟩ := h a (List.mem_cons_self _ _)
      exact List.Forall₂.cons (roundtrip_scalar a h1 h2) htail

/-- C3 witness: the two-step round-trip bound evaluated on a concrete
sample array. -/
theorem float_roundtrip_within_two_steps_witness :
    List.Forall₂ (fun y x : ℚ => |y - x| ≤ 1 / 16384)
      (int16ToFloat32 (float32ToInt16 [1, -(1 / 2), 0])) [1, -(1 / 2), 0] :=
  float_roundtrip_within_two_steps [1, -(1 / 2), 0] (by norm_num)

/-- C8: `float32ToInt16` first clamps each sample to [-1, 1] (out-of-range
input is clamped, never an error) and then scales, by 32767 for
non-negative samples and by 32768 for negative samples, truncating to an
integer; `int16ToFloat32` divides each sample by 32768. -/
theorem converter_scaling (x : ℚ) (v : ℤ) :
    float32ToInt16 [x] = float32ToInt16 [max (-1) (min 1 x)] ∧
    (0 ≤ x → x ≤ 1 → float32ToInt16 [x] = [truncQ (x * 32767)]) ∧
    (-1 ≤ x → x < 0 → float32ToInt16 [x] = [truncQ (x * 32768)]) ∧
    int16ToFloat32 [v] = [(v : ℚ) / 32768] := by
  refine ⟨?_, ?_, ?_, rfl⟩
  · have hmin : min 1 (max (-1) (min 1 x)) = max (-1) (min 1 x) :=
      min_eq_right (max_le (by norm_num) (min_le_left 1 x))
    have hcc : max (-1) (min 1 (max (-1) (min 1 x))) = max (-1) (min 1 x) := by
      rw [hmin]
      exact max_eq_right (le_max_left (-1) (min 1 x))
    simp [float32ToInt16, hcc]
  · intro h0 h1
    have hc : max (-1) (min 1 x) = x :=
      clamp_eq x (le_trans (by norm_num) h0) h1
    have hs : ¬ x < 0 := not_lt.mpr h0
    simp [float32ToInt16, hc, hs]
  · intro hm h0
    have hc : max (-1) (min 1 x) = x :=
      clamp_eq x hm (le_of_lt (lt_of_lt_of_le h0 (by norm_num)))
    simp [float32ToInt16, hc, h0]

/-- C8 witness: the scaling rules evaluated at concrete samples on both
sides of zero, at an out-of-range sample, and at a concrete integer. -/
theorem converter_scaling_witness :
    float32ToInt16 [(1 : ℚ) / 2] = [truncQ ((1 : ℚ) / 2 * 32767)] ∧
    float32ToInt16 [-(1 : ℚ) / 2] = [truncQ (-(1 : ℚ) / 2 * 32768)] ∧
    float32ToInt16 [(2 : ℚ)] = float32ToInt16 [max (-1) (min 1 (2 : ℚ))] ∧
    int16ToFloat32 [(100 : ℤ)] = [(100 : ℚ) / 32768] :=
  ⟨(converter_scaling ((1 : ℚ) / 2) 100).2.1 (by norm_num) (by norm_num),
   (converter_scaling (-(1 : ℚ) / 2) 100).2.2.1 (by norm_num) (by norm_num),
   (converter_scaling (2 : ℚ) 100).1,
   (converter_scaling (2 : ℚ) 100).2.2.2⟩

theorem b64Val_b64Char : ∀ n < 64, b64Val (b64Char n) = n := by decide

theorem b64Char_ne_pad : ∀ n < 64, ¬ b64Char n = '=' := by decide

theorem decodeB64_encodeB64 :
    ∀ bs : List Nat, (∀ b ∈ bs, b < 256) → decodeB64 (encodeB64 bs) = bs
  | [], _ => rfl
  | [a], h => by
      have ha : a < 256 := h a (by simp)
      have e1 := b64Val_b64Char (a / 4) (by omega)
      have e2 := b64Val_b64Char (a % 4 * 16) (by omega)
      simp only [encodeB64, decodeB64, if_true, e1, e2]
      simp only [List.cons.injEq, and_true]
      omega
  | [a, b], h => by
      have ha : a < 256 := h a (by simp)
      have hb : b < 256 := h b (by simp)
      have e1 := b64Val_b64Char (a / 4) (by omega)
      have e2 := b64Val_b64Char (a % 4 * 16 + b / 16) (by omega)
      have e3 := b64Val_b64Char (b % 16 * 4) (by omega)
      simp only [encodeB64, decodeB64,
        if_neg (b64Char_ne_pad (b % 16 * 4) (by omega)), if_true, e1, e2, e3]
      simp only [List.cons.injEq, and_true]
      exact ⟨by omega, by omega⟩
  | a :: b :: c :: rest, h => by
      have ha : a < 256 := h a (by simp)
      have hb : b < 256 := h b (by simp)
      have hc : c < 256 := h c (by simp)
      have ih := decodeB64_encodeB64 rest fun x hx => h x (by simp [hx])
      have e1 := b64Val_b64Char (a / 4) (by omega)
      have e2 := b64Val_b64Char (a % 4 * 16 + b / 16) (by omega)
      have e3 := b64Val_b64Char (b % 16 * 4 + c / 64) (by omega)
      have e4 := b64Val_b64Char (c % 64) (by omega)
      simp only [encodeB64, decodeB64,
        if_neg (b64Char_ne_pad (b % 16 * 4 + c / 64) (by omega)),
        if_neg (b64Char_ne_pad (c % 64) (by omega)), e1, e2, e3, e4, ih]
      simp only [List.cons.injEq, and_true]
      exact ⟨by omega, by omega, by omega⟩

/-- C7: the transport encoding is a binary-safe exact round-trip — for every
byte buffer, including buffers with embedded zero bytes, the empty buffer,
and the all-zero buffer, decoding the encoding returns the buffer exactly. -/
theorem base64_roundtrip (bytes : List Nat) (h : ∀ b ∈ bytes, b < 256) :
    base64ToArrayBuffer (arrayBufferToBase64 bytes) = bytes :=
  decodeB64_encodeB64 bytes h

/-- C7 witness: the round-trip evaluated on a concrete buffer with leading
zero bytes and a non-multiple-of-three length. -/
theorem base64_roundtrip_witness :
    base64ToArrayBuffer (arrayBufferToBase64 [0, 0, 0, 255, 10]) =
      [0, 0, 0, 255, 10] :=
  base64_roundtrip [0, 0, 0, 255, 10] (by decide)

end SpecBridge
